import Mathlib

/-!
Verification of the weather-impact calculation engine of the AI-GAPSIM
backend (`backend/app/services/weather_service.py`).

The engine is embedded shallowly:

* numeric values are modelled as exact rationals (`ℚ`); the one place the
  source calls `math.sqrt` (the branch line-rating formula) is modelled
  with `Real.sqrt` over `ℝ`;
* Python exceptions (ZeroDivisionError, ValueError from `math.sqrt`,
  IndexError on list subscripts) are modelled as `Option`/explicit error
  constructors: `none` / `.error` means the source raises;
* the dynamic dictionaries the source builds are modelled as structures,
  with `Option` fields for keys that may be absent.

Dates are modelled as naturals (ISO date strings compare like their
chronological order, so any strictly monotone encoding is faithful).
-/

/-- Weather observation for one day, as the dictionaries built by
`get_weather_data_for_point` carry it (the fields `calculate_impacts`
reads). -/
structure WeatherDay where
  date : ℕ
  max_temperature : ℚ
  avg_temperature : ℚ
  min_temperature : ℚ
  relative_humidity : ℚ
  specific_humidity : ℚ
  longwave_radiation : ℚ
  shortwave_radiation : ℚ
  precipitation : ℚ
  wind_speed : ℚ
deriving DecidableEq

/-- GeoJSON geometry as `extract_coordinates_from_geometry` consumes it:
the `type` tag selects among Point / LineString / Polygon coordinate
payloads; `other` stands for any unrecognized `type` string. -/
inductive Geometry
  | point (coordinates : ℚ × ℚ)
  | lineString (coordinates : List (ℚ × ℚ))
  | polygon (coordinates : List (List (ℚ × ℚ)))
  | other (type : String)
deriving DecidableEq

/-- Result of location resolution: a returned coordinate pair, the Python
value `None`, or a raised exception (IndexError / ZeroDivisionError). -/
inductive ExtractResult
  | point (p : ℚ × ℚ)
  | noPoint
  | error
deriving DecidableEq

/-- Embedding of `extract_coordinates_from_geometry` (weather_service.py,
lines 196-220).  `Point` returns its coordinates; `LineString` subscripts
the vertex list at `len(coords) // 2` (IndexError when out of range, i.e.
when the list is empty); `Polygon` takes ring `[0]` (IndexError when there
is no ring) and divides the coordinate sums by `len(coords)`
(ZeroDivisionError when the ring is empty); any other `type` returns
`None`. -/
def extract_coordinates_from_geometry : Geometry → ExtractResult
  | Geometry.point c => ExtractResult.point c
  | Geometry.lineString coords =>
      match coords[coords.length / 2]? with
      | some c => ExtractResult.point c
      | none => ExtractResult.error
  | Geometry.polygon rings =>
      match rings[0]? with
      | none => ExtractResult.error
      | some coords =>
          if coords.length = 0 then ExtractResult.error
          else ExtractResult.point
            (((coords.map Prod.fst).sum) / (coords.length : ℚ),
             ((coords.map Prod.snd).sum) / (coords.length : ℚ))
  | Geometry.other _ => ExtractResult.noPoint

/-- Grid component as `calculate_impacts` reads it: the `component_type`
tag together with the fields the corresponding branch subscripts.  For a
load, `longitude` is `component["geometry"]["coordinates"][0]` of its
point geometry. -/
inductive Component
  | bus
  | branch (rate1 : ℚ)
  | generator (p_gen q_gen : ℚ) (gen_type : String)
  | load (p_load q_load longitude : ℚ)
  | substation
deriving DecidableEq

/-- The `load_impact` sub-dictionary of one daily impact. -/
structure LoadImpact where
  PL_day : ℚ
  QL_day : ℚ
deriving DecidableEq

/-- The `generator_impact` sub-dictionary of one daily impact. -/
structure GenImpact where
  Pgen_day : ℚ
  Qgen_day : ℚ
  Efficiency : ℚ
deriving DecidableEq

/-- Embedding of the `component_type == "load"` branch of
`calculate_impacts` (lines 266-281): scale both powers by the
longitude-dependent temperature-deviation factor, then clamp the real
power at zero. -/
def loadImpact (p_load q_load longitude T_ref max_temp_current : ℚ) : LoadImpact :=
  let PL_day_current := p_load * (1 + 0.01 * (5.33 - 0.067 * longitude) * (max_temp_current - T_ref))
  let PL_day_current := max 0 PL_day_current
  let QL_day_current := q_load * (1 + 0.01 * (5.33 - 0.067 * longitude) * (max_temp_current - T_ref))
  ⟨PL_day_current, QL_day_current⟩

/-- Embedding of the `component_type == "generator"` branch of
`calculate_impacts` (lines 283-335), with the source's constants
`V_cutin=3`, `V_cutout=25`, `V_rated=12`, `T_th_PV=35`, `ro_sf=0.02`,
`T_th_gen=40`, `ro_th=0.031`, `eff_no=0.6` inlined as exact rationals. -/
def generatorImpact (p_gen q_gen : ℚ) (gen_type : String)
    (max_temp_current wind_speed_current : ℚ) : GenImpact :=
  if gen_type = "WT-Onshore" then
    let p_gen_day_current :=
      if wind_speed_current < 3 ∨ wind_speed_current > 25 then 0
      else if 3 ≤ wind_speed_current ∧ wind_speed_current < 12 then
        p_gen * ((wind_speed_current - 3) / (12 - 3))
      else p_gen
    ⟨p_gen_day_current, q_gen, 1⟩
  else if gen_type = "SolarPV-Tracking" ∨ gen_type = "SolarPV-NonTracking" then
    let eff := if max_temp_current ≤ 35 then 1 else 0.6 * (1 - 0.02 * (max_temp_current - 35))
    ⟨p_gen * eff, q_gen, eff⟩
  else
    let eff := if max_temp_current ≤ 40 then 1 else 1 - 0.031 * (max_temp_current - 40)
    ⟨p_gen * eff, q_gen * eff, eff⟩

/-- Embedding of the `component_type == "branch"` branch of
`calculate_impacts` (lines 337-353): `CL = rate1 * alpha_l *
sqrt(T_RL / max_temp_current)` with `alpha_l = 1`, `T_RL = 35`, clamped
back to `rate1` when above `rate1` or below `0`.  `none` models the
exception the source raises: ZeroDivisionError on the ratio when the
temperature is zero, ValueError from `math.sqrt` on a negative ratio. -/
noncomputable def branchCL (rate1 max_temp_current : ℚ) : Option ℝ :=
  if max_temp_current = 0 then none
  else
    let ratio : ℚ := 35 / max_temp_current
    if ratio < 0 then none
    else
      let CL_day_current : ℝ := (rate1 : ℝ) * 1 * Real.sqrt (ratio : ℚ)
      some (if CL_day_current > (rate1 : ℝ) ∨ CL_day_current < 0 then (rate1 : ℝ)
            else CL_day_current)

/-- The component-specific sub-dictionary of one daily impact: which key
(`load_impact` / `generator_impact` / `branch_impact`) is present, if
any.  Bus and substation components get no impact sub-record. -/
inductive KindImpact
  | loadI (li : LoadImpact)
  | genI (gi : GenImpact)
  | branchI (CL_day : ℝ)
  | noI

/-- One entry of `impacts["daily_impacts"]`: the date, the echoed weather
observation, and the component-specific impact sub-record. -/
structure DailyImpact where
  date : ℕ
  weather : WeatherDay
  impact : KindImpact

/-- One day of the engine loop (body of the `for day_data in weather_data`
loop of `calculate_impacts`); `none` when the day raises (branch rating
domain error). -/
noncomputable def dailyImpact (c : Component) (day_one_max_temp : ℚ)
    (day_data : WeatherDay) : Option DailyImpact :=
  match c with
  | Component.load p_load q_load longitude =>
      some ⟨day_data.date, day_data,
        KindImpact.loadI (loadImpact p_load q_load longitude day_one_max_temp
          day_data.max_temperature)⟩
  | Component.generator p_gen q_gen gen_type =>
      some ⟨day_data.date, day_data,
        KindImpact.genI (generatorImpact p_gen q_gen gen_type
          day_data.max_temperature day_data.wind_speed)⟩
  | Component.branch rate1 =>
      (branchCL rate1 day_data.max_temperature).map
        (fun cl => ⟨day_data.date, day_data, KindImpact.branchI cl⟩)
  | Component.bus => some ⟨day_data.date, day_data, KindImpact.noI⟩
  | Component.substation => some ⟨day_data.date, day_data, KindImpact.noI⟩

/-- Sequencing of a fallible map over a list: the first raised exception
aborts the whole computation, as in the source's loop. -/
def mapOption {α β : Type} (f : α → Option β) : List α → Option (List β)
  | [] => some []
  | a :: l => do
      let b ← f a
      let bs ← mapOption f l
      pure (b :: bs)

/-- Per-field min/max accumulator, one per tracked parameter of
`calculate_summary`: the four keys of
`{"min": ..., "min_date": ..., "max": ..., "max_date": ...}`. -/
structure FieldStat (α : Type) where
  min : Option α
  min_date : Option ℕ
  max : Option α
  max_date : Option ℕ

/-- The all-`None` initial accumulator of `calculate_summary`. -/
def initStat {α : Type} : FieldStat α := ⟨none, none, none, none⟩

/-- One iteration of the scan of `calculate_summary` (lines 405-457) for
one tracked parameter, on the entry `(date, value)`: the minimum is
replaced when unset or on a strictly lesser value, the maximum when unset
or on a strictly greater value. -/
def updateStat {α : Type} [LinearOrder α] (s : FieldStat α) (e : ℕ × α) : FieldStat α :=
  let s1 : FieldStat α :=
    match s.min with
    | none => { s with min := some e.2, min_date := some e.1 }
    | some m => if e.2 < m then { s with min := some e.2, min_date := some e.1 } else s
  match s1.max with
  | none => { s1 with max := some e.2, max_date := some e.1 }
  | some M => if e.2 > M then { s1 with max := some e.2, max_date := some e.1 } else s1

/-- The scan of `calculate_summary` for one tracked parameter, over the
projected `(date, value)` series in series order.  The source iterates
date-major over all parameters at once; each parameter's four cells
depend only on its own projected series, so the per-field scan is the
same computation. -/
def fieldSummary {α : Type} [LinearOrder α] (l : List (ℕ × α)) : FieldStat α :=
  l.foldl updateStat initStat

/-- The component-specific block of the summary dictionary. -/
inductive KindSummary
  | loadS (PL_day QL_day : FieldStat ℚ)
  | genS (Pgen_day Qgen_day Efficiency : FieldStat ℚ)
  | branchS (CL_day : FieldStat ℝ)
  | noS

/-- The summary dictionary of `calculate_summary`: one `FieldStat` per
weather parameter, plus the component-specific block. -/
structure Summary where
  max_temperature : FieldStat ℚ
  avg_temperature : FieldStat ℚ
  min_temperature : FieldStat ℚ
  relative_humidity : FieldStat ℚ
  specific_humidity : FieldStat ℚ
  longwave_radiation : FieldStat ℚ
  shortwave_radiation : FieldStat ℚ
  precipitation : FieldStat ℚ
  wind_speed : FieldStat ℚ
  kind : KindSummary

/-- Embedding of `calculate_summary` (lines 363-458): every weather
parameter is scanned over the whole series; the component-specific
parameters are scanned over the entries carrying the corresponding
sub-dictionary (the source guards each with `"..._impact" in impact`). -/
noncomputable def calculate_summary (daily_impacts : List DailyImpact)
    (c : Component) : Summary :=
  { max_temperature := fieldSummary (daily_impacts.map fun d => (d.date, d.weather.max_temperature))
    avg_temperature := fieldSummary (daily_impacts.map fun d => (d.date, d.weather.avg_temperature))
    min_temperature := fieldSummary (daily_impacts.map fun d => (d.date, d.weather.min_temperature))
    relative_humidity := fieldSummary (daily_impacts.map fun d => (d.date, d.weather.relative_humidity))
    specific_humidity := fieldSummary (daily_impacts.map fun d => (d.date, d.weather.specific_humidity))
    longwave_radiation := fieldSummary (daily_impacts.map fun d => (d.date, d.weather.longwave_radiation))
    shortwave_radiation := fieldSummary (daily_impacts.map fun d => (d.date, d.weather.shortwave_radiation))
    precipitation := fieldSummary (daily_impacts.map fun d => (d.date, d.weather.precipitation))
    wind_speed := fieldSummary (daily_impacts.map fun d => (d.date, d.weather.wind_speed))
    kind :=
      match c with
      | Component.load _ _ _ =>
          KindSummary.loadS
            (fieldSummary (daily_impacts.filterMap fun d =>
              match d.impact with
              | KindImpact.loadI li => some (d.date, li.PL_day)
              | _ => none))
            (fieldSummary (daily_impacts.filterMap fun d =>
              match d.impact with
              | KindImpact.loadI li => some (d.date, li.QL_day)
              | _ => none))
      | Component.generator _ _ _ =>
          KindSummary.genS
            (fieldSummary (daily_impacts.filterMap fun d =>
              match d.impact with
              | KindImpact.genI gi => some (d.date, gi.Pgen_day)
              | _ => none))
            (fieldSummary (daily_impacts.filterMap fun d =>
              match d.impact with
              | KindImpact.genI gi => some (d.date, gi.Qgen_day)
              | _ => none))
            (fieldSummary (daily_impacts.filterMap fun d =>
              match d.impact with
              | KindImpact.genI gi => some (d.date, gi.Efficiency)
              | _ => none))
      | Component.branch _ =>
          KindSummary.branchS
            (fieldSummary (daily_impacts.filterMap fun d =>
              match d.impact with
              | KindImpact.branchI cl => some (d.date, cl)
              | _ => none))
      | Component.bus => KindSummary.noS
      | Component.substation => KindSummary.noS }

/-- The dictionary `calculate_impacts` returns: `daily_impacts` is `none`
when the key is absent (the early `return {}` for an empty series), and
`summary` is `none` when that key was never added. -/
structure ImpactsDict where
  daily_impacts : Option (List DailyImpact)
  summary : Option Summary

/-- Embedding of `calculate_impacts` (lines 222-361): empty weather data
returns the empty dictionary; otherwise the first day's maximum
temperature is the reference, each day is mapped to a `DailyImpact` (a
raised exception aborting the call, modelled by the outer `none`), and
the summary key is added only when the daily list is non-empty. -/
noncomputable def calculate_impacts (c : Component) (weather_data : List WeatherDay) :
    Option ImpactsDict :=
  match weather_data with
  | [] => some ⟨none, none⟩
  | day_one :: _ => do
      let daily ← mapOption (dailyImpact c day_one.max_temperature) weather_data
      pure ⟨some daily, if daily.isEmpty then none else some (calculate_summary daily c)⟩

/-- Accessor for the `daily_impacts` key of the engine's result (absent
key or raised exception give `none`). -/
def emittedDaily (r : Option ImpactsDict) : Option (List DailyImpact) :=
  r.bind ImpactsDict.daily_impacts

/-- A sample weather day with the given date and maximum temperature
(the other fields are fixed plausible values). -/
def wday (dt : ℕ) (tmax : ℚ) : WeatherDay :=
  ⟨dt, tmax, 20, 15, 50, 8, 200, 800, 0, 5⟩

/-- C1: for a wind-onshore generator, output power is 0 below cut-in
(3 m/s) or above cut-out (25 m/s), ramps linearly as
`p_gen * (speed - 3) / (12 - 3)` between cut-in and rated speed (12 m/s),
and equals `p_gen` from rated to cut-out speed; the emitted efficiency is
always 1 and the emitted reactive power is `q_gen` unchanged. -/
theorem wind_onshore_per_day_impact (p q t w : ℚ) :
    ((w < 3 ∨ w > 25) → (generatorImpact p q "WT-Onshore" t w).Pgen_day = 0) ∧
    (3 ≤ w → w < 12 →
      (generatorImpact p q "WT-Onshore" t w).Pgen_day = p * ((w - 3) / (12 - 3))) ∧
    (12 ≤ w → w ≤ 25 → (generatorImpact p q "WT-Onshore" t w).Pgen_day = p) ∧
    (generatorImpact p q "WT-Onshore" t w).Efficiency = 1 ∧
    (generatorImpact p q "WT-Onshore" t w).Qgen_day = q := by
  have hg : generatorImpact p q "WT-Onshore" t w =
      ⟨if w < 3 ∨ w > 25 then 0
        else if 3 ≤ w ∧ w < 12 then p * ((w - 3) / (12 - 3)) else p, q, 1⟩ := by
    simp [generatorImpact]
  rw [hg]
  refine ⟨?_, ?_, ?_, rfl, rfl⟩
  · intro h
    simp only [if_pos h]
  · intro h1 h2
    have hno : ¬ (w < 3 ∨ w > 25) := by
      push_neg
      constructor <;> linarith
    simp only [if_neg hno, if_pos (And.intro h1 h2)]
  · intro h1 h2
    have hno : ¬ (w < 3 ∨ w > 25) := by
      push_neg
      constructor <;> linarith
    have hno2 : ¬ (3 ≤ w ∧ w < 12) := by
      intro hc
      linarith [hc.2]
    simp only [if_neg hno, if_neg hno2]

/-- Witness for C1 at a concrete ramp-region input. -/
theorem wind_onshore_per_day_impact_witness :
    (generatorImpact 100 7 "WT-Onshore" 20 6).Pgen_day = 100 * ((6 - 3) / (12 - 3)) ∧
    (generatorImpact 100 7 "WT-Onshore" 20 6).Efficiency = 1 ∧
    (generatorImpact 100 7 "WT-Onshore" 20 6).Qgen_day = 7 := by
  obtain ⟨h0, h1, h2, h3, h4⟩ := wind_onshore_per_day_impact 100 7 20 6
  exact ⟨h1 (by norm_num) (by norm_num), h3, h4⟩

/-- C6: for every component kind, an empty weather series yields the
empty dictionary: no `daily_impacts` key and no `summary` key are
emitted (the summary step is skipped entirely). -/
theorem empty_series_no_summary (c : Component) :
    calculate_impacts c [] = some ⟨none, none⟩ := rfl

/-- C10: generator derating is not clamped below zero: a thermal-type
generator (any `gen_type` other than the wind and solar tags) with
`p_gen > 0` gets strictly negative emitted efficiency and output power
whenever `max_temp > 40 + 1/0.031`, and both solar types likewise
whenever `max_temp > 35 + 1/0.02`. -/
theorem negative_derating_unclamped (p q t1 t2 w : ℚ) (g : String)
    (hp : 0 < p) (h1 : g ≠ "WT-Onshore") (h2 : g ≠ "SolarPV-Tracking")
    (h3 : g ≠ "SolarPV-NonTracking")
    (ht1 : 40 + 1 / 0.031 < t1) (ht2 : 35 + 1 / 0.02 < t2) :
    ((generatorImpact p q g t1 w).Efficiency < 0 ∧
      (generatorImpact p q g t1 w).Pgen_day < 0) ∧
    ((generatorImpact p q "SolarPV-Tracking" t2 w).Efficiency < 0 ∧
      (generatorImpact p q "SolarPV-Tracking" t2 w).Pgen_day < 0) ∧
    ((generatorImpact p q "SolarPV-NonTracking" t2 w).Efficiency < 0 ∧
      (generatorImpact p q "SolarPV-NonTracking" t2 w).Pgen_day < 0) := by
  have hth : ¬ (t1 ≤ 40) := by
    rw [not_le]
    have : (0 : ℚ) < 1 / 0.031 := by norm_num
    linarith
  have hpv : ¬ (t2 ≤ 35) := by
    rw [not_le]
    have : (0 : ℚ) < 1 / 0.02 := by norm_num
    linarith
  have heff1 : (1 : ℚ) - 0.031 * (t1 - 40) < 0 := by
    have h031 : (0.031 : ℚ) * (1 / 0.031) = 1 := by norm_num
    nlinarith [mul_lt_mul_of_pos_left ht1 (show (0:ℚ) < 0.031 by norm_num)]
  have heff2 : (0.6 : ℚ) * (1 - 0.02 * (t2 - 35)) < 0 := by
    have : (1 : ℚ) - 0.02 * (t2 - 35) < 0 := by
      nlinarith [mul_lt_mul_of_pos_left ht2 (show (0:ℚ) < 0.02 by norm_num)]
    nlinarith
  have e1 : generatorImpact p q g t1 w =
      ⟨p * (1 - 0.031 * (t1 - 40)), q * (1 - 0.031 * (t1 - 40)),
        1 - 0.031 * (t1 - 40)⟩ := by
    simp [generatorImpact, h1, h2, h3, hth]
  have e2 : generatorImpact p q "SolarPV-Tracking" t2 w =
      ⟨p * (0.6 * (1 - 0.02 * (t2 - 35))), q, 0.6 * (1 - 0.02 * (t2 - 35))⟩ := by
    simp [generatorImpact, hpv]
  have e3 : generatorImpact p q "SolarPV-NonTracking" t2 w =
      ⟨p * (0.6 * (1 - 0.02 * (t2 - 35))), q, 0.6 * (1 - 0.02 * (t2 - 35))⟩ := by
    simp [generatorImpact, hpv]
  rw [e1, e2, e3]
  exact ⟨⟨heff1, mul_neg_of_pos_of_neg hp heff1⟩,
    ⟨heff2, mul_neg_of_pos_of_neg hp heff2⟩,
    ⟨heff2, mul_neg_of_pos_of_neg hp heff2⟩⟩

/-- Witness for C10 at a concrete thermal tag and temperature 100. -/
theorem negative_derating_unclamped_witness :
    ((generatorImpact 1 0 "GAS" 100 0).Efficiency < 0 ∧
      (generatorImpact 1 0 "GAS" 100 0).Pgen_day < 0) ∧
    ((generatorImpact 1 0 "SolarPV-Tracking" 100 0).Efficiency < 0 ∧
      (generatorImpact 1 0 "SolarPV-Tracking" 100 0).Pgen_day < 0) ∧
    ((generatorImpact 1 0 "SolarPV-NonTracking" 100 0).Efficiency < 0 ∧
      (generatorImpact 1 0 "SolarPV-NonTracking" 100 0).Pgen_day < 0) := by
  exact negative_derating_unclamped 1 0 100 100 0 "GAS" (by norm_num) (by decide)
    (by decide) (by decide) (by norm_num) (by norm_num)

/-- For a positive temperature the branch computation reaches the clamp:
no exception, and the emitted value is the clamped `rate1 * 1 * sqrt(35/t)`. -/
theorem branchCL_pos (rate1 t : ℚ) (ht : 0 < t) :
    branchCL rate1 t =
      some (if (rate1 : ℝ) * 1 * Real.sqrt (((35 : ℚ) / t : ℚ) : ℝ) > (rate1 : ℝ) ∨
               (rate1 : ℝ) * 1 * Real.sqrt (((35 : ℚ) / t : ℚ) : ℝ) < 0
            then (rate1 : ℝ)
            else (rate1 : ℝ) * 1 * Real.sqrt (((35 : ℚ) / t : ℚ) : ℝ)) := by
  have h0 : ¬ (t = 0) := ne_of_gt ht
  have h1 : ¬ ((35 : ℚ) / t < 0) := not_lt.mpr (le_of_lt (div_pos (by norm_num) ht))
  simp only [branchCL, h0, h1, if_false, ite_false]

/-- C2: for every branch and every day with positive maximum temperature,
the emitted line capacity is `rate1 * sqrt(35 / max_temp)` (the spec's
`rate1 * alpha_l * sqrt(T_RL / max_temp)` with `alpha_l = 1`, `T_RL = 35`)
replaced by `rate1` whenever that value exceeds `rate1` or is below `0`;
and at `max_temp = 35` the emitted capacity is exactly `rate1`. -/
theorem branch_capacity_formula (rate1 t : ℚ) (ht : 0 < t) :
    branchCL rate1 t =
      some (if (rate1 : ℝ) * Real.sqrt ((35 : ℝ) / (t : ℝ)) > (rate1 : ℝ) ∨
               (rate1 : ℝ) * Real.sqrt ((35 : ℝ) / (t : ℝ)) < 0
            then (rate1 : ℝ)
            else (rate1 : ℝ) * Real.sqrt ((35 : ℝ) / (t : ℝ))) ∧
    branchCL rate1 35 = some ((rate1 : ℝ)) := by
  constructor
  · rw [branchCL_pos rate1 t ht]
    have hc : (((35 : ℚ) / t : ℚ) : ℝ) = (35 : ℝ) / (t : ℝ) := by push_cast; ring
    rw [hc, mul_one]
  · rw [branchCL_pos rate1 35 (by norm_num)]
    have hc : (((35 : ℚ) / 35 : ℚ) : ℝ) = 1 := by norm_num
    rw [hc, Real.sqrt_one, mul_one, mul_one]
    split_ifs <;> rfl

/-- Witness for C2: at `rate1 = 200`, `max_temp = 140` the ratio is 1/4,
its square root 1/2, so the emitted capacity is 100; at `max_temp = 35`
it is exactly 200. -/
theorem branch_capacity_formula_witness :
    branchCL 200 140 = some (100 : ℝ) ∧ branchCL 200 35 = some (200 : ℝ) := by
  obtain ⟨h1, h2⟩ := branch_capacity_formula 200 140 (by norm_num)
  have hs : Real.sqrt ((35 : ℝ) / ((140 : ℚ) : ℝ)) = 1 / 2 := by
    have h4 : (35 : ℝ) / ((140 : ℚ) : ℝ) = (1 / 2) ^ 2 := by push_cast; norm_num
    rw [h4, Real.sqrt_sq (by norm_num : (0 : ℝ) ≤ 1 / 2)]
  rw [hs] at h1
  constructor
  · rw [h1]
    norm_num
  · rw [h2]
    norm_num

/-- C8: the branch per-day rating computation raises (yields no value)
whenever `max_temp ≤ 0` -- ZeroDivisionError at zero, a `math.sqrt`
domain error below zero -- and under the precondition `max_temp > 0` the
square-root argument `35 / max_temp` is non-negative and the computation
yields a value. -/
theorem branch_rating_domain (rate1 t : ℚ) :
    (t ≤ 0 → branchCL rate1 t = none) ∧
    (0 < t → 0 ≤ (35 : ℚ) / t ∧ (branchCL rate1 t).isSome = true) := by
  constructor
  · intro hle
    rcases hle.lt_or_eq with hlt | heq
    · have h0 : ¬ (t = 0) := ne_of_lt hlt
      have h1 : (35 : ℚ) / t < 0 := div_neg_of_pos_of_neg (by norm_num) hlt
      simp [branchCL, h0, h1]
    · simp [branchCL, heq]
  · intro ht
    refine ⟨le_of_lt (div_pos (by norm_num) ht), ?_⟩
    rw [branchCL_pos rate1 t ht]
    rfl

/-- Witness for C8 at `max_temp = -5` (raises) and `max_temp = 35`
(defined). -/
theorem branch_rating_domain_witness :
    branchCL 100 (-5) = none ∧
    0 ≤ (35 : ℚ) / 35 ∧ (branchCL 100 35).isSome = true := by
  exact ⟨(branch_rating_domain 100 (-5)).1 (by norm_num),
    (branch_rating_domain 100 35).2 (by norm_num)⟩

/-- C9: for a branch with non-negative nameplate rating and a day with
positive maximum temperature, the emitted capacity after clamping is
between 0 and `rate1`. -/
theorem branch_capacity_bounds (rate1 t : ℚ) (h1 : 0 ≤ rate1) (h2 : 0 < t) :
    ∃ cl : ℝ, branchCL rate1 t = some cl ∧ 0 ≤ cl ∧ cl ≤ (rate1 : ℝ) := by
  rw [branchCL_pos rate1 t h2]
  have hr : (0 : ℝ) ≤ (rate1 : ℝ) := by exact_mod_cast h1
  by_cases hc : (rate1 : ℝ) * 1 * Real.sqrt (((35 : ℚ) / t : ℚ) : ℝ) > (rate1 : ℝ) ∨
      (rate1 : ℝ) * 1 * Real.sqrt (((35 : ℚ) / t : ℚ) : ℝ) < 0
  · exact ⟨(rate1 : ℝ), by rw [if_pos hc], hr, le_refl _⟩
  · push_neg at hc
    exact ⟨_, by rw [if_neg (by push_neg; exact hc)], hc.2, hc.1⟩

/-- Witness for C9 at `rate1 = 100`, `max_temp = 35`. -/
theorem branch_capacity_bounds_witness :
    ∃ cl : ℝ, branchCL 100 35 = some cl ∧ 0 ≤ cl ∧ cl ≤ ((100 : ℚ) : ℝ) := by
  exact branch_capacity_bounds 100 35 (by norm_num) (by norm_num)

/-- C3 counterexample: a load with `p_load = -1` on a single-day series
has its emitted `PL_day` clamped to 0, not equal to `p_load`; `QL_day`
is unclamped. -/
theorem load_single_day_counterexample :
    emittedDaily (calculate_impacts (Component.load (-1) 2 (-100)) [wday 0 20]) =
      some [⟨0, wday 0 20, KindImpact.loadI ⟨0, 2⟩⟩] ∧ (0 : ℚ) ≠ -1 := by
  constructor
  · simp [emittedDaily, calculate_impacts, mapOption, dailyImpact, loadImpact, wday]
  · norm_num

/-- C3 amended: for a load with non-negative `p_load` and any
single-element weather series (so the reference equals the day's maximum
temperature), the engine emits `PL_day = p_load` and `QL_day = q_load`
exactly. -/
theorem load_single_day_identity (p q lon : ℚ) (d : WeatherDay) (hp : 0 ≤ p) :
    emittedDaily (calculate_impacts (Component.load p q lon) [d]) =
      some [⟨d.date, d, KindImpact.loadI ⟨p, q⟩⟩] := by
  simp only [emittedDaily, calculate_impacts, mapOption, dailyImpact, loadImpact,
    Option.bind_eq_bind, Option.some_bind, Option.bind_some]
  have hz : d.max_temperature - d.max_temperature = 0 := sub_self _
  rw [hz]
  norm_num [hp, max_eq_right]

/-- Witness for the amended C3 at a concrete non-negative load. -/
theorem load_single_day_identity_witness :
    emittedDaily (calculate_impacts (Component.load 5 (-2) (-100)) [wday 3 25]) =
      some [⟨3, wday 3 25, KindImpact.loadI ⟨5, -2⟩⟩] :=
  load_single_day_identity 5 (-2) (-100) (wday 3 25) (by norm_num)

/-- Stated from the spec (section 4.1) for comparison with the source:
the unweighted arithmetic mean of the outer ring's vertex coordinates
ignoring the ring-closure duplicate vertex (the repeated first vertex at
the end of a closed GeoJSON ring), `none` when no vertex remains. -/
def polygonMeanIgnoringClosure (ring : List (ℚ × ℚ)) : Option (ℚ × ℚ) :=
  let r := if 2 ≤ ring.length ∧ ring.head? = ring.getLast? then ring.dropLast else ring
  if r.length = 0 then none
  else some (((r.map Prod.fst).sum) / (r.length : ℚ),
             ((r.map Prod.snd).sum) / (r.length : ℚ))

/-- A closed square ring, with the GeoJSON ring-closure duplicate of the
first vertex at the end. -/
def ring0 : List (ℚ × ℚ) := [(0, 0), (4, 0), (4, 4), (0, 4), (0, 0)]

/-- C5 counterexample: on a closed square ring the source averages over
all five listed vertices, closure duplicate included, giving (8/5, 8/5);
the mean that ignores the ring-closure duplicate is (2, 2), so the
resolved point is not the claimed duplicate-free mean. -/
theorem polygon_mean_counterexample :
    extract_coordinates_from_geometry (Geometry.polygon [ring0]) =
      ExtractResult.point (8 / 5, 8 / 5) ∧
    polygonMeanIgnoringClosure ring0 = some (2, 2) ∧
    ExtractResult.point ((8 : ℚ) / 5, (8 : ℚ) / 5) ≠ ExtractResult.point (2, 2) := by
  refine ⟨?_, ?_, ?_⟩
  · simp [extract_coordinates_from_geometry, ring0]
    norm_num
  · simp [polygonMeanIgnoringClosure, ring0]
    norm_num
  · intro h
    rw [ExtractResult.point.injEq, Prod.mk.injEq] at h
    exact absurd h.1 (by norm_num)

/-- C5 amended: location resolution maps a Point to its coordinate, a
non-empty LineString to the vertex at index `length / 2` (for even
lengths the second of the two middle vertices), a Polygon whose outer
ring is present and non-empty to the unweighted arithmetic mean of all
the ring's listed vertex coordinates -- the ring-closure duplicate
vertex included -- and any other geometry kind to no point. -/
theorem extract_coordinates_cases :
    (∀ c, extract_coordinates_from_geometry (Geometry.point c) = ExtractResult.point c) ∧
    (∀ (coords : List (ℚ × ℚ)) c, coords[coords.length / 2]? = some c →
      extract_coordinates_from_geometry (Geometry.lineString coords) = ExtractResult.point c) ∧
    (∀ (rings : List (List (ℚ × ℚ))) ring, rings[0]? = some ring → ring ≠ [] →
      extract_coordinates_from_geometry (Geometry.polygon rings) =
        ExtractResult.point (((ring.map Prod.fst).sum) / (ring.length : ℚ),
                             ((ring.map Prod.snd).sum) / (ring.length : ℚ))) ∧
    (∀ s, extract_coordinates_from_geometry (Geometry.other s) = ExtractResult.noPoint) := by
  refine ⟨fun c => rfl, fun coords c h => ?_, fun rings ring h hne => ?_, fun s => rfl⟩
  · simp [extract_coordinates_from_geometry, h]
  · simp [extract_coordinates_from_geometry, h, hne]

/-- Witness for the amended C5 at concrete geometries: an even-length
line takes the third of four vertices, and the closed ring's mean keeps
the duplicate. -/
theorem extract_coordinates_cases_witness :
    extract_coordinates_from_geometry (Geometry.point (7, 8)) = ExtractResult.point (7, 8) ∧
    extract_coordinates_from_geometry
      (Geometry.lineString [(0, 0), (1, 1), (2, 2), (3, 3)]) = ExtractResult.point (2, 2) ∧
    extract_coordinates_from_geometry (Geometry.other "MultiPoint") = ExtractResult.noPoint := by
  obtain ⟨h1, h2, h3, h4⟩ := extract_coordinates_cases
  exact ⟨h1 (7, 8), h2 [(0, 0), (1, 1), (2, 2), (3, 3)] (2, 2) (by decide), h4 "MultiPoint"⟩

/-- C7 counterexample: on a LineString with an empty vertex list the
source raises an IndexError (subscript at index 0 of an empty list)
instead of propagating "no point". -/
theorem empty_line_counterexample :
    extract_coordinates_from_geometry (Geometry.lineString []) = ExtractResult.error ∧
    ExtractResult.error ≠ ExtractResult.noPoint := by decide

/-- C7 amended: an unrecognized geometry kind resolves to "no point"
without failing, but a LineString with no vertices raises an IndexError,
a Polygon with no rings raises an IndexError, and a Polygon whose outer
ring is empty raises a ZeroDivisionError: empty vertex lists fail
rather than propagating "no point". -/
theorem unresolvable_location_cases :
    (∀ s, extract_coordinates_from_geometry (Geometry.other s) = ExtractResult.noPoint) ∧
    extract_coordinates_from_geometry (Geometry.lineString []) = ExtractResult.error ∧
    extract_coordinates_from_geometry (Geometry.polygon []) = ExtractResult.error ∧
    (∀ (rings : List (List (ℚ × ℚ))), rings[0]? = some [] →
      extract_coordinates_from_geometry (Geometry.polygon rings) = ExtractResult.error) := by
  refine ⟨fun s => rfl, rfl, rfl, fun rings h => ?_⟩
  simp [extract_coordinates_from_geometry, h]

/-- Witness for the amended C7 at a concrete one-ring polygon whose
outer ring is empty. -/
theorem unresolvable_location_cases_witness :
    extract_coordinates_from_geometry (Geometry.other "GeometryCollection") =
      ExtractResult.noPoint ∧
    extract_coordinates_from_geometry (Geometry.polygon [[]]) = ExtractResult.error := by
  obtain ⟨h1, h2, h3, h4⟩ := unresolvable_location_cases
  exact ⟨h1 "GeometryCollection", h4 [[]] rfl⟩

/-- The entry the scan's minimum cells end at: the first entry of the
list attaining the least value (later entries replace the candidate only
on a strictly lesser value). -/
def firstMin : List (ℕ × ℚ) → Option (ℕ × ℚ)
  | [] => none
  | e :: l =>
      match firstMin l with
      | none => some e
      | some r => if r.2 < e.2 then some r else some e

/-- The entry the scan's maximum cells end at: the first entry of the
list attaining the greatest value. -/
def firstMax : List (ℕ × ℚ) → Option (ℕ × ℚ)
  | [] => none
  | e :: l =>
      match firstMax l with
      | none => some e
      | some r => if e.2 < r.2 then some r else some e

theorem updateStat_min (s : FieldStat ℚ) (e : ℕ × ℚ) :
    (updateStat s e).min =
      match s.min with
      | none => some e.2
      | some m => if e.2 < m then some e.2 else s.min := by
  obtain ⟨mn, mnd, mx, mxd⟩ := s
  unfold updateStat
  cases mn <;> cases mx <;> dsimp <;> split_ifs <;> simp [apply_ite FieldStat.min]

theorem updateStat_min_date (s : FieldStat ℚ) (e : ℕ × ℚ) :
    (updateStat s e).min_date =
      match s.min with
      | none => some e.1
      | some m => if e.2 < m then some e.1 else s.min_date := by
  obtain ⟨mn, mnd, mx, mxd⟩ := s
  unfold updateStat
  cases mn <;> cases mx <;> dsimp <;> split_ifs <;> simp [apply_ite FieldStat.min_date]

theorem updateStat_max (s : FieldStat ℚ) (e : ℕ × ℚ) :
    (updateStat s e).max =
      match s.max with
      | none => some e.2
      | some m => if e.2 > m then some e.2 else s.max := by
  obtain ⟨mn, mnd, mx, mxd⟩ := s
  unfold updateStat
  cases mn <;> cases mx <;> dsimp <;> split_ifs <;> simp [apply_ite FieldStat.max] <;> (try intro hc) <;> linarith

theorem updateStat_max_date (s : FieldStat ℚ) (e : ℕ × ℚ) :
    (updateStat s e).max_date =
      match s.max with
      | none => some e.1
      | some m => if e.2 > m then some e.1 else s.max_date := by
  obtain ⟨mn, mnd, mx, mxd⟩ := s
  unfold updateStat
  cases mn <;> cases mx <;> dsimp <;> split_ifs <;> simp [apply_ite FieldStat.max_date] <;> (try intro hc) <;> linarith

theorem foldl_min_char : ∀ (l : List (ℕ × ℚ)) (s : FieldStat ℚ) (m : ℚ) (d : ℕ),
    s.min = some m → s.min_date = some d →
    ((l.foldl updateStat s).min, (l.foldl updateStat s).min_date) =
      (match firstMin l with
       | none => (some m, some d)
       | some r => if r.2 < m then (some r.2, some r.1) else (some m, some d)) := by
  intro l
  induction l with
  | nil =>
    intro s m d hm hd
    simp [firstMin, hm, hd]
  | cons e l ih =>
    intro s m d hm hd
    rw [List.foldl_cons]
    by_cases h : e.2 < m
    · have h1 : (updateStat s e).min = some e.2 := by
        rw [updateStat_min, hm]
        simp [h]
      have h2 : (updateStat s e).min_date = some e.1 := by
        rw [updateStat_min_date, hm]
        simp [h]
      rw [ih _ _ _ h1 h2]
      cases hf : firstMin l with
      | none =>
        have hg : firstMin (e :: l) = some e := by simp [firstMin, hf]
        simp [hg, h]
      | some r =>
        have hg : firstMin (e :: l) = if r.2 < e.2 then some r else some e := by
          simp [firstMin, hf]
        by_cases hr : r.2 < e.2
        · have hrm : r.2 < m := lt_trans hr h
          simp [hg, hr, hrm]
        · simp [hg, hr, h]
    · have h1 : (updateStat s e).min = some m := by
        rw [updateStat_min, hm]
        simp [h, hm]
      have h2 : (updateStat s e).min_date = some d := by
        rw [updateStat_min_date, hm]
        simp [h, hd]
      rw [ih _ _ _ h1 h2]
      cases hf : firstMin l with
      | none =>
        have hg : firstMin (e :: l) = some e := by simp [firstMin, hf]
        simp [hg, h]
      | some r =>
        have hg : firstMin (e :: l) = if r.2 < e.2 then some r else some e := by
          simp [firstMin, hf]
        by_cases hr : r.2 < e.2
        · simp [hg, hr]
        · have hrm : ¬ (r.2 < m) := not_lt.mpr (le_trans (not_lt.mp h) (not_lt.mp hr))
          simp [hg, hr, h, hrm]

theorem foldl_max_char : ∀ (l : List (ℕ × ℚ)) (s : FieldStat ℚ) (m : ℚ) (d : ℕ),
    s.max = some m → s.max_date = some d →
    ((l.foldl updateStat s).max, (l.foldl updateStat s).max_date) =
      (match firstMax l with
       | none => (some m, some d)
       | some r => if r.2 > m then (some r.2, some r.1) else (some m, some d)) := by
  intro l
  induction l with
  | nil =>
    intro s m d hm hd
    simp [firstMax, hm, hd]
  | cons e l ih =>
    intro s m d hm hd
    rw [List.foldl_cons]
    by_cases h : e.2 > m
    · have h1 : (updateStat s e).max = some e.2 := by
        rw [updateStat_max, hm]
        simp [h]
      have h2 : (updateStat s e).max_date = some e.1 := by
        rw [updateStat_max_date, hm]
        simp [h]
      rw [ih _ _ _ h1 h2]
      cases hf : firstMax l with
      | none =>
        have hg : firstMax (e :: l) = some e := by simp [firstMax, hf]
        simp [hg, h]
      | some r =>
        have hg : firstMax (e :: l) = if e.2 < r.2 then some r else some e := by
          simp [firstMax, hf]
        by_cases hr : e.2 < r.2
        · have hrm : r.2 > m := lt_trans h hr
          simp [hg, hr, hrm]
        · simp [hg, hr, h]
    · have h1 : (updateStat s e).max = some m := by
        rw [updateStat_max, hm]
        simp [h, hm]
      have h2 : (updateStat s e).max_date = some d := by
        rw [updateStat_max_date, hm]
        simp [h, hd]
      rw [ih _ _ _ h1 h2]
      cases hf : firstMax l with
      | none =>
        have hg : firstMax (e :: l) = some e := by simp [firstMax, hf]
        simp [hg, h]
      | some r =>
        have hg : firstMax (e :: l) = if e.2 < r.2 then some r else some e := by
          simp [firstMax, hf]
        by_cases hr : e.2 < r.2
        · simp [hg, hr]
        · have hrm : ¬ (r.2 > m) := by
            rw [not_lt] at h hr ⊢
            exact le_trans hr h
          simp [hg, hr, h, hrm]

theorem firstMin_isSome (e : ℕ × ℚ) (l : List (ℕ × ℚ)) :
    (firstMin (e :: l)).isSome = true := by
  show (match firstMin l with
    | none => some e
    | some r => if r.2 < e.2 then some r else some e).isSome = true
  cases firstMin l with
  | none => rfl
  | some r => by_cases h : r.2 < e.2 <;> simp [h]

theorem firstMin_eq_none {l : List (ℕ × ℚ)} (h : firstMin l = none) : l = [] := by
  cases l with
  | nil => rfl
  | cons e l =>
    have := firstMin_isSome e l
    rw [h] at this
    cases this

theorem firstMax_isSome (e : ℕ × ℚ) (l : List (ℕ × ℚ)) :
    (firstMax (e :: l)).isSome = true := by
  show (match firstMax l with
    | none => some e
    | some r => if e.2 < r.2 then some r else some e).isSome = true
  cases firstMax l with
  | none => rfl
  | some r => by_cases h : e.2 < r.2 <;> simp [h]

theorem firstMax_eq_none {l : List (ℕ × ℚ)} (h : firstMax l = none) : l = [] := by
  cases l with
  | nil => rfl
  | cons e l =>
    have := firstMax_isSome e l
    rw [h] at this
    cases this

/-- The entry `firstMin` returns splits the list into a strict-greater
prefix (so it is the first entry attaining the minimum) and a
greater-or-equal suffix (so its value is the least). -/
theorem firstMin_decomp : ∀ (l : List (ℕ × ℚ)) (r : ℕ × ℚ), firstMin l = some r →
    ∃ l1 l2, l = l1 ++ r :: l2 ∧ (∀ x ∈ l1, r.2 < x.2) ∧ (∀ x ∈ l2, r.2 ≤ x.2) := by
  intro l
  induction l with
  | nil =>
    intro r h
    simp [firstMin] at h
  | cons e l ih =>
    intro r h
    cases hf : firstMin l with
    | none =>
      have hl : l = [] := firstMin_eq_none hf
      have he : firstMin (e :: l) = some e := by simp [firstMin, hf]
      rw [he] at h
      obtain rfl : e = r := Option.some.inj h
      subst hl
      exact ⟨[], [], rfl, by simp, by simp⟩
    | some r1 =>
      obtain ⟨l1, l2, hsplit, hl1, hl2⟩ := ih r1 hf
      have he : firstMin (e :: l) = if r1.2 < e.2 then some r1 else some e := by
        simp [firstMin, hf]
      by_cases hr : r1.2 < e.2
      · rw [he, if_pos hr] at h
        obtain rfl : r1 = r := Option.some.inj h
        refine ⟨e :: l1, l2, by rw [hsplit, List.cons_append], ?_, hl2⟩
        intro x hx
        rcases List.mem_cons.mp hx with rfl | hx
        · exact hr
        · exact hl1 x hx
      · rw [he, if_neg hr] at h
        obtain rfl : e = r := Option.some.inj h
        refine ⟨[], l, by simp, by simp, ?_⟩
        intro x hx
        rw [hsplit] at hx
        have her : e.2 ≤ r1.2 := not_lt.mp hr
        rcases List.mem_append.mp hx with hx1 | hx2
        · exact le_of_lt (lt_of_le_of_lt her (hl1 x hx1))
        · rcases List.mem_cons.mp hx2 with rfl | hx3
          · exact her
          · exact le_trans her (hl2 x hx3)

/-- The entry `firstMax` returns splits the list into a strict-lesser
prefix (so it is the first entry attaining the maximum) and a
less-or-equal suffix (so its value is the greatest). -/
theorem firstMax_decomp : ∀ (l : List (ℕ × ℚ)) (r : ℕ × ℚ), firstMax l = some r →
    ∃ l1 l2, l = l1 ++ r :: l2 ∧ (∀ x ∈ l1, x.2 < r.2) ∧ (∀ x ∈ l2, x.2 ≤ r.2) := by
  intro l
  induction l with
  | nil =>
    intro r h
    simp [firstMax] at h
  | cons e l ih =>
    intro r h
    cases hf : firstMax l with
    | none =>
      have hl : l = [] := firstMax_eq_none hf
      have he : firstMax (e :: l) = some e := by simp [firstMax, hf]
      rw [he] at h
      obtain rfl : e = r := Option.some.inj h
      subst hl
      exact ⟨[], [], rfl, by simp, by simp⟩
    | some r1 =>
      obtain ⟨l1, l2, hsplit, hl1, hl2⟩ := ih r1 hf
      have he : firstMax (e :: l) = if e.2 < r1.2 then some r1 else some e := by
        simp [firstMax, hf]
      by_cases hr : e.2 < r1.2
      · rw [he, if_pos hr] at h
        obtain rfl : r1 = r := Option.some.inj h
        refine ⟨e :: l1, l2, by rw [hsplit, List.cons_append], ?_, hl2⟩
        intro x hx
        rcases List.mem_cons.mp hx with rfl | hx
        · exact hr
        · exact hl1 x hx
      · rw [he, if_neg hr] at h
        obtain rfl : e = r := Option.some.inj h
        refine ⟨[], l, by simp, by simp, ?_⟩
        intro x hx
        rw [hsplit] at hx
        have her : r1.2 ≤ e.2 := not_lt.mp hr
        rcases List.mem_append.mp hx with hx1 | hx2
        · exact le_of_lt (lt_of_lt_of_le (hl1 x hx1) her)
        · rcases List.mem_cons.mp hx2 with rfl | hx3
          · exact her
          · exact le_trans (hl2 x hx3) her

/-- On a non-empty series the scan's minimum cells end at the entry
`firstMin` designates, and the maximum cells at `firstMax`. -/
theorem fieldSummary_firstMinMax (e : ℕ × ℚ) (l : List (ℕ × ℚ)) :
    ∃ rmin rmax,
      firstMin (e :: l) = some rmin ∧ firstMax (e :: l) = some rmax ∧
      (fieldSummary (e :: l)).min = some rmin.2 ∧
      (fieldSummary (e :: l)).min_date = some rmin.1 ∧
      (fieldSummary (e :: l)).max = some rmax.2 ∧
      (fieldSummary (e :: l)).max_date = some rmax.1 := by
  have hstart : (e :: l).foldl updateStat initStat = l.foldl updateStat (updateStat initStat e) :=
    rfl
  have hbase : updateStat initStat e =
      ⟨some e.2, some e.1, some e.2, some e.1⟩ := rfl
  have hminc := foldl_min_char l (updateStat initStat e) e.2 e.1 (by rw [hbase]) (by rw [hbase])
  have hmaxc := foldl_max_char l (updateStat initStat e) e.2 e.1 (by rw [hbase]) (by rw [hbase])
  rw [Prod.mk.injEq] at hminc hmaxc
  cases hfmin : firstMin l with
  | none =>
    cases hfmax : firstMax l with
    | none =>
      refine ⟨e, e, by simp [firstMin, hfmin], by simp [firstMax, hfmax], ?_⟩
      rw [hfmin] at hminc
      rw [hfmax] at hmaxc
      simp only [fieldSummary, hstart]
      exact ⟨hminc.1, hminc.2, hmaxc.1, hmaxc.2⟩
    | some rx =>
      have hl : l = [] := firstMin_eq_none hfmin
      subst hl
      simp [firstMax] at hfmax
  | some rn =>
    cases hfmax : firstMax l with
    | none =>
      have hl : l = [] := firstMax_eq_none hfmax
      subst hl
      simp [firstMin] at hfmin
    | some rx =>
      rw [hfmin] at hminc
      rw [hfmax] at hmaxc
      refine ⟨if rn.2 < e.2 then rn else e, if rx.2 > e.2 then rx else e,
        ?_, ?_, ?_, ?_, ?_, ?_⟩ <;>
        by_cases hn : rn.2 < e.2 <;> by_cases hx : rx.2 > e.2 <;>
        simp [fieldSummary, hstart, firstMin, firstMax, hfmin, hfmax, hn, hx,
          hminc.1, hminc.2, hmaxc.1, hmaxc.2,
          gt_iff_lt, apply_ite Prod.fst, apply_ite Prod.snd]

/-- C4: on a non-empty (date, value) series in ascending date order, the
scan of `calculate_summary` reports as minimum (resp. maximum) a value
attained by an actual entry, reports as `min_date` (resp. `max_date`)
that entry's date, every entry of the series is bounded by the reported
value, every earlier entry is strictly worse (the scan replaces only on
a strictly lesser/greater value), and hence on ties the reported date is
the earliest date among the entries attaining the extreme. -/
theorem summary_minmax_first_occurrence (l : List (ℕ × ℚ)) (hne : l ≠ [])
    (hsort : l.Pairwise (fun a b => a.1 < b.1)) :
    ∃ rmin rmax : ℕ × ℚ, ∃ l1 l2 l3 l4 : List (ℕ × ℚ),
      (fieldSummary l).min = some rmin.2 ∧ (fieldSummary l).min_date = some rmin.1 ∧
      l = l1 ++ rmin :: l2 ∧ (∀ x ∈ l, rmin.2 ≤ x.2) ∧ (∀ x ∈ l1, rmin.2 < x.2) ∧
      (∀ x ∈ l, x.2 = rmin.2 → rmin.1 ≤ x.1) ∧
      (fieldSummary l).max = some rmax.2 ∧ (fieldSummary l).max_date = some rmax.1 ∧
      l = l3 ++ rmax :: l4 ∧ (∀ x ∈ l, x.2 ≤ rmax.2) ∧ (∀ x ∈ l3, x.2 < rmax.2) ∧
      (∀ x ∈ l, x.2 = rmax.2 → rmax.1 ≤ x.1) := by
  obtain ⟨e, l', rfl⟩ : ∃ e l', l = e :: l' := by
    cases l with
    | nil => exact absurd rfl hne
    | cons e l' => exact ⟨e, l', rfl⟩
  obtain ⟨rmin, rmax, hfmin, hfmax, hmin, hmind, hmax, hmaxd⟩ :=
    fieldSummary_firstMinMax e l'
  obtain ⟨l1, l2, hsplit1, hpre1, hsuf1⟩ := firstMin_decomp _ rmin hfmin
  obtain ⟨l3, l4, hsplit2, hpre2, hsuf2⟩ := firstMax_decomp _ rmax hfmax
  have hminall : ∀ x ∈ (e :: l'), rmin.2 ≤ x.2 := by
    intro x hx
    rw [hsplit1] at hx
    rcases List.mem_append.mp hx with h1 | h2
    · exact le_of_lt (hpre1 x h1)
    · rcases List.mem_cons.mp h2 with rfl | h3
      · exact le_refl _
      · exact hsuf1 x h3
  have hmaxall : ∀ x ∈ (e :: l'), x.2 ≤ rmax.2 := by
    intro x hx
    rw [hsplit2] at hx
    rcases List.mem_append.mp hx with h1 | h2
    · exact le_of_lt (hpre2 x h1)
    · rcases List.mem_cons.mp h2 with rfl | h3
      · exact le_refl _
      · exact hsuf2 x h3
  have hsort1 := hsort
  rw [hsplit1] at hsort1
  obtain ⟨-, hpair1, -⟩ := List.pairwise_append.mp hsort1
  have hsort2 := hsort
  rw [hsplit2] at hsort2
  obtain ⟨-, hpair2, -⟩ := List.pairwise_append.mp hsort2
  have hdatemin : ∀ x ∈ (e :: l'), x.2 = rmin.2 → rmin.1 ≤ x.1 := by
    intro x hx hval
    rw [hsplit1] at hx
    rcases List.mem_append.mp hx with h1 | h2
    · exact absurd hval (ne_of_gt (hpre1 x h1))
    · rcases List.mem_cons.mp h2 with rfl | h3
      · exact le_refl _
      · exact le_of_lt ((List.pairwise_cons.mp hpair1).1 x h3)
  have hdatemax : ∀ x ∈ (e :: l'), x.2 = rmax.2 → rmax.1 ≤ x.1 := by
    intro x hx hval
    rw [hsplit2] at hx
    rcases List.mem_append.mp hx with h1 | h2
    · exact absurd hval (ne_of_lt (hpre2 x h1))
    · rcases List.mem_cons.mp h2 with rfl | h3
      · exact le_refl _
      · exact le_of_lt ((List.pairwise_cons.mp hpair2).1 x h3)
  exact ⟨rmin, rmax, l1, l2, l3, l4, hmin, hmind, hsplit1, hminall, hpre1, hdatemin,
    hmax, hmaxd, hsplit2, hmaxall, hpre2, hdatemax⟩

/-- Witness for C4 at the concrete series
`[(1, 5), (2, 3), (3, 3)]`: the minimum 3 is tied between dates 2 and 3
and must be reported on date 2. -/
theorem summary_minmax_first_occurrence_witness :
    ∃ rmin rmax : ℕ × ℚ, ∃ l1 l2 l3 l4 : List (ℕ × ℚ),
      (fieldSummary [((1 : ℕ), (5 : ℚ)), (2, 3), (3, 3)]).min = some rmin.2 ∧
      (fieldSummary [((1 : ℕ), (5 : ℚ)), (2, 3), (3, 3)]).min_date = some rmin.1 ∧
      [((1 : ℕ), (5 : ℚ)), (2, 3), (3, 3)] = l1 ++ rmin :: l2 ∧
      (∀ x ∈ [((1 : ℕ), (5 : ℚ)), (2, 3), (3, 3)], rmin.2 ≤ x.2) ∧
      (∀ x ∈ l1, rmin.2 < x.2) ∧
      (∀ x ∈ [((1 : ℕ), (5 : ℚ)), (2, 3), (3, 3)], x.2 = rmin.2 → rmin.1 ≤ x.1) ∧
      (fieldSummary [((1 : ℕ), (5 : ℚ)), (2, 3), (3, 3)]).max = some rmax.2 ∧
      (fieldSummary [((1 : ℕ), (5 : ℚ)), (2, 3), (3, 3)]).max_date = some rmax.1 ∧
      [((1 : ℕ), (5 : ℚ)), (2, 3), (3, 3)] = l3 ++ rmax :: l4 ∧
      (∀ x ∈ [((1 : ℕ), (5 : ℚ)), (2, 3), (3, 3)], x.2 ≤ rmax.2) ∧
      (∀ x ∈ l3, x.2 < rmax.2) ∧
      (∀ x ∈ [((1 : ℕ), (5 : ℚ)), (2, 3), (3, 3)], x.2 = rmax.2 → rmax.1 ≤ x.1) :=
  summary_minmax_first_occurrence [((1 : ℕ), (5 : ℚ)), (2, 3), (3, 3)]
    (by decide) (by decide)
